import Mathlib

/-! URL Health Monitor dashboard: a shallow embedding.

The embedded code is the dashboard of `src/frontend/src/App.js` and
`src/frontend/src/components/UrlMetrics.js`.

* JavaScript strings that are taken apart character by character (the text
  field of `addUrl`) are lists of characters, `JSString`.  Every separator
  of the regular expression `/[\n,\s]+/` and every character of the prefixes
  `'http://'` and `'https://'` lies in the Basic Multilingual Plane, so that
  on well-formed strings the code-unit operations of JavaScript (`split`,
  `trim`, `startsWith`, concatenation) act as the list operations below.
* Strings that are only built and shown (messages, labels, cells) are `String`.
* Values read from JSON are `JSValue`; numbers delivered by JSON are finite,
  they are modelled by rationals.
* Language builtins whose result depends on floating point formatting or on
  the environment (`Number.prototype.toFixed`, `JSON.stringify`, the `-`
  operator, `Date.prototype.getHours`) are parameters of the definitions.
-/

set_option autoImplicit false

namespace UrlHealthMonitor

/-! ## JavaScript strings -/

/-- A JavaScript string, as the sequence of its characters. -/
abbrev JSString := List Char

/-- The characters matched by `\s` in a regular expression, which are also the
characters removed by `String.prototype.trim`: ECMAScript WhiteSpace (TAB, VT,
FF, ZWNBSP and the Unicode space separators) and LineTerminator (LF, CR, LS, PS). -/
def isWhiteSpace (c : Char) : Bool :=
  c.toNat == 0x09 || c.toNat == 0x0A || c.toNat == 0x0B || c.toNat == 0x0C ||
  c.toNat == 0x0D || c.toNat == 0x20 || c.toNat == 0xA0 || c.toNat == 0x1680 ||
  (0x2000 ≤ c.toNat && c.toNat ≤ 0x200A) ||
  c.toNat == 0x2028 || c.toNat == 0x2029 || c.toNat == 0x202F ||
  c.toNat == 0x205F || c.toNat == 0x3000 || c.toNat == 0xFEFF

/-- The character class `[\n,\s]` of the regular expression in `addUrl`. -/
def isSeparator (c : Char) : Bool :=
  c == '\n' || c == ',' || isWhiteSpace c

/-- The scan of `String.prototype.split` for the separator `/[\n,\s]+/`, left to
right.  `cur` holds (reversed) the characters read since the end of the last
match; `inMatch` tells that the previous character was consumed by a match of
the separator, which the greedy `+` then extends.  A match that starts emits the
substring read so far; the end of the input emits the remaining substring. -/
def splitScan : JSString → List Char → Bool → List JSString
  | [], cur, _ => [cur.reverse]
  | c :: cs, cur, inMatch =>
    if isSeparator c then
      if inMatch then splitScan cs [] true
      else cur.reverse :: splitScan cs [] true
    else splitScan cs (c :: cur) false

/-- The call `s.split(/[\n,\s]+/)`. -/
def split (s : JSString) : List JSString :=
  splitScan s [] false

/-- The call `s.trim()`: white space removed from both ends. -/
def trim (s : JSString) : JSString :=
  (((s.dropWhile isWhiteSpace).reverse).dropWhile isWhiteSpace).reverse

/-- The call `s.startsWith(p)`. -/
def startsWith (s : JSString) (p : String) : Bool :=
  p.toList.isPrefixOf s

/-! ## `addUrl` (App.js, lines 86-100) -/

/-- The constant `newUrls` of `addUrl`:
`urlInput.split(/[\n,\s]+/).filter(url => url.trim() !== '')`. -/
def newUrls (urlInput : JSString) : List JSString :=
  (split urlInput).filter (fun url => trim url != [])

/-- The arrow function mapped over `newUrls` in `addUrl` (lines 91-96): a URL
that starts with neither `'http://'` nor `'https://'` gets `'https://'` in front. -/
def normalizeUrl (url : JSString) : JSString :=
  if !startsWith url "http://" && !startsWith url "https://" then
    "https://".toList ++ url
  else url

/-- The constant `validUrls` of `addUrl`, the argument of the call `checkUrls(validUrls)`. -/
def validUrls (urlInput : JSString) : List JSString :=
  (newUrls urlInput).map normalizeUrl

/-- The maximal runs of non-separator characters of a string, in order of
appearance: the pieces between separators, the empty pieces left out. -/
def maximalRuns (s : JSString) : List JSString :=
  (s.splitOnP isSeparator).filter (fun run => run != [])

/-! ## JavaScript values -/

/-- A value read from a JSON document, or a field that is missing (`undefined`). -/
inductive JSValue where
  | undefined
  | null
  | bool (b : Bool)
  | number (x : ℚ)
  | string (s : String)
  deriving DecidableEq

/-- The abstract operation ToBoolean, which decides `v ? a : b`, `!v` and `v || w`. -/
def JSValue.toBoolean : JSValue → Bool
  | .undefined => false
  | .null => false
  | .bool b => b
  | .number x => x != 0
  | .string s => s != ""

/-- An exception raised while an expression is evaluated. -/
inductive JSError where
  | typeError
  deriving DecidableEq

/-- The method call `v.toFixed(digits)`.  A number formats itself, through the
builtin `toFixed`; `undefined` and `null` have no properties and the other
values have no method of that name, the call raises a TypeError. -/
def callToFixed (toFixed : ℚ → Nat → String) (v : JSValue) (digits : Nat) :
    Except JSError String :=
  match v with
  | .number x => .ok (toFixed x digits)
  | _ => .error .typeError

/-- The call `s.padStart(n, c)`. -/
def padStart (s : String) (n : Nat) (c : Char) : String :=
  String.mk (List.replicate (n - s.length) c) ++ s

/-! ## The state of `App` and the requests it sends -/

/-- An entry of `GET /urls`. -/
structure MonitoredUrl where
  id : Nat
  url : JSString
  deriving DecidableEq

/-- An entry of the response of `POST /check-urls`. -/
structure CheckResult where
  url : String
  status : JSValue
  response_time : JSValue
  status_code : JSValue
  deriving DecidableEq

/-- The state `snackbar` (its field `open` is `opened` here). -/
structure Snackbar where
  opened : Bool
  message : String
  severity : String
  deriving DecidableEq

/-- The state variables of the component `App` (lines 51-61). -/
structure AppState where
  urls : List MonitoredUrl
  urlInput : JSString
  loading : Bool
  urlResults : List CheckResult
  tabValue : Nat
  selectedUrl : Option MonitoredUrl
  snackbar : Snackbar
  deriving DecidableEq

/-- The requests the dashboard sends through axios. -/
inductive Request where
  | getUrls
  | getHealth
  | postCheckUrls (urls : List JSString)
  deriving DecidableEq

/-- The field `response` of an axios error: the answer of the server. -/
structure ErrorResponse (δ : Type) where
  status : Nat
  data : δ

/-- The value a failed axios request rejects with.  `response` and `request`
are objects when they are set, hence truthy. -/
structure AxiosError (δ : Type) where
  response : Option (ErrorResponse δ)
  request : Option Unit
  message : String

/-- The body of a successful answer to `POST /check-urls`, as the test
`response.data && Array.isArray(response.data)` sees it. -/
inductive CheckUrlsData where
  | array (results : List CheckResult)
  | other

/-- How the server answers the requests of one run of `checkUrls`. -/
structure Network (δ : Type) where
  health : Except (AxiosError δ) Unit
  checkUrls : Except (AxiosError δ) CheckUrlsData
  urls : Except (AxiosError δ) (List MonitoredUrl)

/-! ## `fetchUrls`, `checkUrls`, `addUrl` (App.js, lines 68-173) -/

/-- The state after `fetchUrls` has settled (lines 68-80). -/
def fetchUrls {δ : Type} (net : Network δ) (st : AppState) : AppState :=
  match net.urls with
  | .ok data => { st with urls := data }
  | .error _ =>
    { st with snackbar := { opened := true, message := "Failed to fetch URLs", severity := "error" } }

/-- The variable `errorMessage` at the end of the `catch` block of `checkUrls`
(lines 147-163). -/
def errorMessage {δ : Type} (stringify : δ → String) (error : AxiosError δ) : String := Id.run do
  let mut errorMessage := "Failed to check URLs"
  match error.response with
  | some response =>
    errorMessage := "Server error: " ++ toString response.status ++ " - " ++ stringify response.data
  | none =>
    if error.request.isSome then
      errorMessage := "No response received from server"
    else
      errorMessage := "Request error: " ++ error.message
  return errorMessage

/-- The function `checkUrls` (lines 102-173): the state once every request it
started has settled, and the requests sent, in order. -/
def checkUrls {δ : Type} (stringify : δ → String) (net : Network δ) (st : AppState)
    (urlsToCheck : List JSString) : AppState × List Request :=
  let st := { st with loading := true }
  match net.health with
  | .error error =>
    let st := { st with snackbar :=
      { opened := true
        message := "API not reachable: " ++ error.message ++ ". Check if the backend is running."
        severity := "error" } }
    ({ st with loading := false }, [Request.getHealth])
  | .ok _ =>
    match net.checkUrls with
    | .ok (.array results) =>
      let st := { st with urlResults := results }
      -- `fetchUrls()` sends its request here and settles after this function has returned
      let st := { st with snackbar :=
        { opened := true, message := "URLs checked successfully", severity := "success" } }
      let st := { st with loading := false }
      (fetchUrls net st, [Request.getHealth, Request.postCheckUrls urlsToCheck, Request.getUrls])
    | .ok .other =>
      let st := { st with snackbar :=
        { opened := true, message := "Invalid response from server", severity := "error" } }
      ({ st with loading := false }, [Request.getHealth, Request.postCheckUrls urlsToCheck])
    | .error error =>
      let st := { st with snackbar :=
        { opened := true, message := errorMessage stringify error, severity := "error" } }
      ({ st with loading := false }, [Request.getHealth, Request.postCheckUrls urlsToCheck])

/-- The function `addUrl` (lines 86-100). -/
def addUrl {δ : Type} (stringify : δ → String) (net : Network δ) (st : AppState) :
    AppState × List Request :=
  let run := checkUrls stringify net st (validUrls st.urlInput)
  ({ run.1 with urlInput := [] }, run.2)

/-- The property `disabled` of the button 'Check URLs' (line 215):
`loading || !urlInput.trim()`. -/
def checkUrlsButtonDisabled (st : AppState) : Bool :=
  st.loading || (trim st.urlInput == [])

/-- The handler `onClick` of the button 'Refresh All' (lines 282-286):
`if (urls.length > 0) { checkUrls(urls.map(url => url.url)); }`. -/
def refreshAll {δ : Type} (stringify : δ → String) (net : Network δ) (st : AppState) :
    AppState × List Request :=
  if st.urls.length > 0 then
    checkUrls stringify net st (st.urls.map (fun url => url.url))
  else (st, [])

/-- The property `disabled` of the button 'Refresh All' (line 287):
`urls.length === 0 || loading`. -/
def refreshAllDisabled (st : AppState) : Bool :=
  st.urls.length == 0 || st.loading

/-- The Response Time cell of the Latest Results table (App.js, line 261). -/
def latestResultsResponseTime (toFixed : ℚ → Nat → String) (result : CheckResult) :
    Except JSError String :=
  if result.response_time.toBoolean then do
    let fixed ← callToFixed toFixed result.response_time 2
    pure (fixed ++ " ms")
  else pure "N/A"

/-- The Status chip of the Latest Results table (App.js, lines 254-258): the
label is the status itself, the colour compares it with `"UP"`. -/
def latestResultsStatusChip (result : CheckResult) : JSValue × String :=
  (result.status, if result.status = JSValue.string "UP" then "success" else "error")

/-! ## `UrlMetrics` (UrlMetrics.js) -/

/-- A record of `GET /url/:id/health-history`.  `checked_at` is the instant the
time stamp denotes, in milliseconds. -/
structure HealthCheck where
  id : Nat
  checked_at : Int
  status : JSValue
  response_time : JSValue
  status_code : JSValue
  deriving DecidableEq

/-- The answer of `GET /url/:id/metrics`. -/
structure Metrics where
  uptime_percentage : JSValue
  average_response_time : JSValue
  total_checks : JSValue
  deriving DecidableEq

/-- The labels and the data of the line chart, `responseTimeData`. -/
structure LineChartData where
  labels : List String
  data : List JSValue
  deriving DecidableEq

/-- The label of a record in the line chart (lines 85-86); `getHours` and
`getMinutes` read the local time of an instant. -/
def timeLabel (getHours getMinutes : Int → Nat) (check : HealthCheck) : String :=
  toString (getHours check.checked_at) ++ ":" ++
    padStart (toString (getMinutes check.checked_at)) 2 '0'

/-- The constant `responseTimeData` (lines 83-97); `history.slice(0, 20)` is
`history.take 20`. -/
def responseTimeData (getHours getMinutes : Int → Nat) (history : List HealthCheck) :
    LineChartData where
  labels := ((history.take 20).map (timeLabel getHours getMinutes)).reverse
  data := ((history.take 20).map (fun check => check.response_time)).reverse

/-- The data of the pie chart, `uptimeChartData.datasets[0].data` (line 75);
`minus` is the operator `-`. -/
def uptimeChartData (minus : JSValue → JSValue → JSValue) (metrics : Option Metrics) :
    List JSValue :=
  match metrics with
  | some m => [m.uptime_percentage, minus (JSValue.number 100) m.uptime_percentage]
  | none => [JSValue.number 0, JSValue.number 0]

/-- The headline under the pie chart (line 142). -/
def uptimeHeadline (toFixed : ℚ → Nat → String) (metrics : Option Metrics) :
    Except JSError String :=
  match metrics with
  | some m => do
    let fixed ← callToFixed toFixed m.uptime_percentage 2
    pure (fixed ++ "%")
  | none => pure "N/A"

/-- The figure after 'Average Response Time:' (line 156). -/
def averageResponseTimeHeadline (toFixed : ℚ → Nat → String) (metrics : Option Metrics) :
    Except JSError String :=
  match metrics with
  | some m => do
    let fixed ← callToFixed toFixed m.average_response_time 2
    pure (fixed ++ " ms")
  | none => pure "N/A"

/-- What the metrics panel shows (lines 129-191). -/
structure MetricsPanel where
  pie : Option (List JSValue)
  uptime : String
  averageResponseTime : String
  totalChecks : JSValue
  deriving DecidableEq

/-- The rendering of the metrics panel once `loading` is false: the
expressions of lines 71-160 in the order they are evaluated. -/
def renderMetricsPanel (toFixed : ℚ → Nat → String) (minus : JSValue → JSValue → JSValue)
    (metrics : Option Metrics) : Except JSError MetricsPanel := do
  let pieData := uptimeChartData minus metrics
  let uptime ← uptimeHeadline toFixed metrics
  let average ← averageResponseTimeHeadline toFixed metrics
  pure
    { pie := metrics.map (fun _ => pieData)
      uptime := uptime
      averageResponseTime := average
      totalChecks := match metrics with
        | some m => m.total_checks
        | none => JSValue.number 0 }

/-- The Status chip of a row of the Health Check History table (lines 221-225). -/
structure Chip where
  label : String
  color : String
  deriving DecidableEq

/-- The chip of a history record: `check.status ? "UP" : "DOWN"` and
`check.status ? "success" : "error"`. -/
def historyStatusChip (check : HealthCheck) : Chip where
  label := if check.status.toBoolean then "UP" else "DOWN"
  color := if check.status.toBoolean then "success" else "error"

/-- The Response Time cell of the Health Check History table (line 228). -/
def historyResponseTime (toFixed : ℚ → Nat → String) (check : HealthCheck) :
    Except JSError String :=
  if check.response_time.toBoolean then do
    let fixed ← callToFixed toFixed check.response_time 2
    pure (fixed ++ " ms")
  else pure "N/A"

/-- The initial values of the state variables of `App` (lines 51-61). -/
def initialState : AppState where
  urls := []
  urlInput := []
  loading := false
  urlResults := []
  tabValue := 0
  selectedUrl := none
  snackbar := { opened := false, message := "", severity := "info" }

/-- The hours of an instant in a time zone without offset, a value for `getHours`. -/
def utcHours (t : Int) : Nat :=
  ((t / 3600000) % 24).toNat

/-- The minutes of an instant in a time zone without offset, a value for `getMinutes`. -/
def utcMinutes (t : Int) : Nat :=
  ((t / 60000) % 60).toNat

/-- A history of 22 records taken one minute apart, latest first; the record
`i` was down when `i` is a multiple of 5. -/
def sampleHistory : List HealthCheck :=
  (List.range 22).map fun i =>
    { id := 100 - i
      checked_at := 1700000000000 - 60000 * (i : Int)
      status := JSValue.bool (i % 5 != 0)
      response_time := if i % 5 != 0 then JSValue.number (40 + (i : ℚ)) else JSValue.null
      status_code := if i % 5 != 0 then JSValue.number 200 else JSValue.null }

/-! ## Sanity checks of the embedding -/

example : split "a, b\n\nc".toList = ["a".toList, "b".toList, "c".toList] := by decide
example : split ",a,".toList = [[], "a".toList, []] := by decide
example : split [] = [[]] := by decide
example : validUrls " example.com,http://x.y  ".toList =
    ["https://example.com".toList, "http://x.y".toList] := by decide
example : validUrls ",".toList = [] := by decide
example : maximalRuns " example.com,http://x.y  ".toList =
    ["example.com".toList, "http://x.y".toList] := by decide

/-! ## Lemmas on strings -/

theorem startsWith_iff (s : JSString) (p : String) :
    startsWith s p = true ↔ p.toList <+: s := by
  unfold startsWith
  exact List.isPrefixOf_iff_prefix

theorem normalizeUrl_of_scheme (url : JSString)
    (h : "http://".toList <+: url ∨ "https://".toList <+: url) : normalizeUrl url = url := by
  unfold normalizeUrl
  rcases h with h | h
  · simp [(startsWith_iff url "http://").2 h]
  · simp [(startsWith_iff url "https://").2 h]

theorem normalizeUrl_of_no_scheme (url : JSString)
    (h₁ : ¬ "http://".toList <+: url) (h₂ : ¬ "https://".toList <+: url) :
    normalizeUrl url = "https://".toList ++ url := by
  have e₁ : startsWith url "http://" = false := by
    cases h : startsWith url "http://"
    · rfl
    · exact absurd ((startsWith_iff url "http://").1 h) h₁
  have e₂ : startsWith url "https://" = false := by
    cases h : startsWith url "https://"
    · rfl
    · exact absurd ((startsWith_iff url "https://").1 h) h₂
  simp [normalizeUrl, e₁, e₂]

theorem normalizeUrl_scheme (url : JSString) :
    "http://".toList <+: normalizeUrl url ∨ "https://".toList <+: normalizeUrl url := by
  by_cases h₁ : "http://".toList <+: url
  · rw [normalizeUrl_of_scheme url (Or.inl h₁)]; exact Or.inl h₁
  · by_cases h₂ : "https://".toList <+: url
    · rw [normalizeUrl_of_scheme url (Or.inr h₂)]; exact Or.inr h₂
    · rw [normalizeUrl_of_no_scheme url h₁ h₂]
      exact Or.inr (List.prefix_append _ _)

theorem isSeparator_of_isWhiteSpace (c : Char) (h : isWhiteSpace c = true) :
    isSeparator c = true := by
  simp [isSeparator, h]

theorem isSeparator_comma : isSeparator ',' = true := by decide

theorem trim_eq_self (s : JSString) (h : ∀ c ∈ s, isWhiteSpace c = false) : trim s = s := by
  have drop : ∀ t : JSString, (∀ c ∈ t, isWhiteSpace c = false) →
      t.dropWhile isWhiteSpace = t := by
    intro t ht
    cases t with
    | nil => rfl
    | cons a as => simp [List.dropWhile_cons, ht a (List.mem_cons_self a as)]
  unfold trim
  rw [drop s h, drop s.reverse (fun c hc => h c (List.mem_reverse.1 hc)), List.reverse_reverse]

/-- Every piece the scan emits is free of separators when the piece being read is. -/
theorem splitScan_no_separator (s : JSString) :
    ∀ (cur : List Char) (inMatch : Bool), (∀ c ∈ cur, isSeparator c = false) →
      ∀ piece ∈ splitScan s cur inMatch, ∀ c ∈ piece, isSeparator c = false := by
  induction s with
  | nil =>
    intro cur inMatch hcur piece hp c hc
    simp only [splitScan, List.mem_singleton] at hp
    subst hp
    exact hcur c (List.mem_reverse.1 hc)
  | cons a as ih =>
    intro cur inMatch hcur piece hp c hc
    by_cases ha : isSeparator a = true
    · cases inMatch with
      | true =>
        simp only [splitScan, ha, if_true] at hp
        exact ih [] true (by simp) piece hp c hc
      | false =>
        simp only [splitScan, ha, if_true, Bool.false_eq_true, if_false, List.mem_cons] at hp
        rcases hp with hp | hp
        · subst hp
          exact hcur c (List.mem_reverse.1 hc)
        · exact ih [] true (by simp) piece hp c hc
    · simp only [splitScan, ha, if_false] at hp
      refine ih (a :: cur) false ?_ piece hp c hc
      intro d hd
      rcases List.mem_cons.1 hd with hd | hd
      · subst hd; simpa using ha
      · exact hcur d hd

/-- The scan and `List.splitOnP` agree on the non-empty pieces. -/
theorem splitScan_filter (s : JSString) :
    ∀ (cur : List Char) (inMatch : Bool), (inMatch = true → cur = []) →
      (splitScan s cur inMatch).filter (fun run => run != []) =
        ((s.splitOnP isSeparator).modifyHead (fun run => cur.reverse ++ run)).filter
          (fun run => run != []) := by
  induction s with
  | nil =>
    intro cur inMatch _
    simp [splitScan]
  | cons a as ih =>
    intro cur inMatch hcur
    by_cases ha : isSeparator a = true
    · cases inMatch with
      | true =>
        have hnil : cur = [] := hcur rfl
        subst hnil
        have h := ih [] true (fun _ => rfl)
        simp only [List.reverse_nil, List.nil_append] at h
        simp only [splitScan, ha, if_true, List.splitOnP_cons, List.modifyHead_cons,
          List.reverse_nil, List.nil_append]
        rw [h]
        have hid : (List.modifyHead (fun run : List Char => run) (List.splitOnP isSeparator as))
            = List.splitOnP isSeparator as := by
          cases List.splitOnP isSeparator as <;> rfl
        rw [hid]
        simp
      | false =>
        have h := ih [] true (fun _ => rfl)
        simp only [List.reverse_nil, List.nil_append] at h
        have hid : (List.modifyHead (fun run : List Char => run) (List.splitOnP isSeparator as))
            = List.splitOnP isSeparator as := by
          cases List.splitOnP isSeparator as <;> rfl
        rw [hid] at h
        simp only [splitScan, ha, if_true, Bool.false_eq_true, if_false, List.splitOnP_cons,
          List.modifyHead_cons, List.append_nil]
        simp only [List.filter_cons, h]
    · have h := ih (a :: cur) false (fun hf => by cases hf)
      simp only [splitScan, ha, if_false, List.splitOnP_cons, Bool.false_eq_true]
      rw [h, List.modifyHead_modifyHead]
      congr 2
      funext run
      simp

theorem newUrls_eq_maximalRuns (urlInput : JSString) : newUrls urlInput = maximalRuns urlInput := by
  unfold newUrls maximalRuns split
  have hfree := splitScan_no_separator urlInput [] false (by simp)
  have hcongr : (splitScan urlInput [] false).filter (fun url => trim url != []) =
      (splitScan urlInput [] false).filter (fun run => run != []) := by
    apply List.filter_congr
    intro piece hp
    have hws : ∀ c ∈ piece, isWhiteSpace c = false := by
      intro c hc
      cases hw : isWhiteSpace c
      · rfl
      · have := hfree piece hp c hc
        rw [isSeparator_of_isWhiteSpace c hw] at this
        cases this
    rw [trim_eq_self piece hws]
  rw [hcongr, splitScan_filter urlInput [] false (fun hf => by cases hf)]
  have hid : (List.modifyHead (fun run : List Char => ([] : List Char).reverse ++ run)
      (List.splitOnP isSeparator urlInput)) = List.splitOnP isSeparator urlInput := by
    cases List.splitOnP isSeparator urlInput <;> rfl
  rw [hid]

/-- The maximal runs, put end to end, are the input without its separators. -/
theorem maximalRuns_flatten (s : JSString) :
    (maximalRuns s).flatten = s.filter (fun c => !isSeparator c) := by
  unfold maximalRuns
  induction s with
  | nil => rfl
  | cons a as ih =>
    by_cases ha : isSeparator a = true
    · simp only [List.splitOnP_cons, ha, if_true, List.filter_cons, Bool.not_true,
        Bool.false_eq_true, if_false]
      simpa using ih
    · cases hsplit : List.splitOnP isSeparator as with
      | nil => exact absurd hsplit (List.splitOnP_ne_nil _ _)
      | cons run runs =>
        rw [hsplit] at ih
        have ha' : isSeparator a = false := by simpa using ha
        have hrest : (List.filter (fun run => run != []) (run :: runs)).flatten =
            run ++ (List.filter (fun run => run != []) runs).flatten := by
          cases run <;> simp [List.filter_cons]
        rw [hrest] at ih
        simp only [List.splitOnP_cons, ha, if_false, hsplit, List.modifyHead_cons,
          List.filter_cons, Bool.false_eq_true]
        simp [ha', ← ih]

theorem newUrls_mem (urlInput : JSString) (token : JSString) (h : token ∈ newUrls urlInput) :
    token ≠ [] ∧ ∀ c ∈ token, isSeparator c = false := by
  have hfree := splitScan_no_separator urlInput [] false (by simp)
  rw [newUrls_eq_maximalRuns] at h
  have h' := h
  rw [← newUrls_eq_maximalRuns] at h'
  unfold maximalRuns at h
  unfold newUrls split at h'
  rw [List.mem_filter] at h h'
  exact ⟨by simpa using h.2, hfree token h'.1⟩

theorem splitScan_exists_nonempty (s : JSString) :
    ∀ (cur : List Char) (inMatch : Bool), (inMatch = true → cur = []) →
      (cur ≠ [] ∨ ∃ c ∈ s, isSeparator c = false) →
      ∃ piece ∈ splitScan s cur inMatch, piece ≠ [] := by
  induction s with
  | nil =>
    intro cur inMatch _ h
    rcases h with h | ⟨c, hc, _⟩
    · exact ⟨cur.reverse, by simp [splitScan], by simpa using h⟩
    · cases hc
  | cons a as ih =>
    intro cur inMatch hcur h
    by_cases ha : isSeparator a = true
    · have hrest : cur ≠ [] ∨ ∃ c ∈ as, isSeparator c = false := by
        rcases h with h | ⟨c, hc, hsep⟩
        · exact Or.inl h
        · rcases List.mem_cons.1 hc with hc | hc
          · subst hc; rw [ha] at hsep; cases hsep
          · exact Or.inr ⟨c, hc, hsep⟩
      cases inMatch with
      | true =>
        have hnil : cur = [] := hcur rfl
        rcases hrest with h' | h'
        · exact absurd hnil h'
        · obtain ⟨piece, hp, hne⟩ := ih [] true (fun _ => rfl) (Or.inr h')
          exact ⟨piece, by simpa [splitScan, ha] using hp, hne⟩
      | false =>
        rcases hrest with h' | h'
        · exact ⟨cur.reverse, by simp [splitScan, ha], by simpa using h'⟩
        · obtain ⟨piece, hp, hne⟩ := ih [] true (fun _ => rfl) (Or.inr h')
          exact ⟨piece, by simp [splitScan, ha, hp], hne⟩
    · obtain ⟨piece, hp, hne⟩ := ih (a :: cur) false (fun hf => by cases hf) (Or.inl (by simp))
      exact ⟨piece, by simpa [splitScan, ha] using hp, hne⟩

theorem https_append_ne (url : JSString) : "https://".toList ++ url ≠ url := by
  intro h
  have hl := congrArg List.length h
  simp at hl
  omega

/-- A string without separators that is not empty is its own single token. -/
theorem newUrls_of_no_separator (s : JSString) (hne : s ≠ [])
    (hfree : ∀ c ∈ s, isSeparator c = false) : newUrls s = [s] := by
  rw [newUrls_eq_maximalRuns]
  unfold maximalRuns
  have hsingle : s.splitOnP isSeparator = [s] :=
    List.splitOnP_eq_single isSeparator s (fun c hc => by simp [hfree c hc])
  rw [hsingle]
  simp [List.filter_cons, hne]

/-- The normalised form of a token is not empty and has no separator. -/
theorem normalizeUrl_no_separator (token : JSString) (hne : token ≠ [])
    (hfree : ∀ c ∈ token, isSeparator c = false) :
    normalizeUrl token ≠ [] ∧ ∀ c ∈ normalizeUrl token, isSeparator c = false := by
  unfold normalizeUrl
  split
  · refine ⟨by simp, ?_⟩
    intro c hc
    rcases List.mem_append.1 hc with hc | hc
    · have hpre : ∀ d ∈ "https://".toList, isSeparator d = false := by decide
      exact hpre c hc
    · exact hfree c hc
  · exact ⟨hne, hfree⟩

/-! ## The claims on `addUrl` -/

/-- C1: for every token `addUrl` extracts, a token that starts with neither
'http://' nor 'https://' is submitted to `checkUrls` as 'https://' followed by
the token, a token that starts with either is submitted unchanged, so that
every submitted URL starts with 'http://' or 'https://'; 'example.com' is
submitted as 'https://example.com'. -/
theorem validUrls_scheme_inferred (urlInput : JSString) :
    List.Forall₂
      (fun token url =>
        (¬ "http://".toList <+: token ∧ ¬ "https://".toList <+: token →
          url = "https://".toList ++ token) ∧
        ("http://".toList <+: token ∨ "https://".toList <+: token → url = token))
      (newUrls urlInput) (validUrls urlInput) ∧
    (∀ url ∈ validUrls urlInput, "http://".toList <+: url ∨ "https://".toList <+: url) ∧
    validUrls "example.com".toList = ["https://example.com".toList] := by
  refine ⟨?_, ?_, by decide⟩
  · unfold validUrls
    rw [List.forall₂_map_right_iff, List.forall₂_same]
    intro token _
    exact ⟨fun h => normalizeUrl_of_no_scheme token h.1 h.2, normalizeUrl_of_scheme token⟩
  · intro url hurl
    unfold validUrls at hurl
    obtain ⟨token, _, rfl⟩ := List.mem_map.1 hurl
    exact normalizeUrl_scheme token

/-- C2, as stated, fails: the tokens 'ftp://host' and 'HTTP://host' have a
scheme and are submitted with 'https://' in front, not unchanged. -/
theorem validUrls_other_scheme_prefixed :
    validUrls "ftp://host".toList = ["https://ftp://host".toList] ∧
    validUrls "HTTP://host".toList = ["https://HTTP://host".toList] ∧
    normalizeUrl "ftp://host".toList ≠ "ftp://host".toList := by
  decide

/-- C2, amended: a token is submitted unchanged exactly when it starts with
'http://' or 'https://' in lower case; every other token, whatever scheme it
carries, is submitted with 'https://' in front. -/
theorem validUrls_unchanged_iff (urlInput : JSString) :
    List.Forall₂
      (fun token url =>
        (url = token ↔ ("http://".toList <+: token ∨ "https://".toList <+: token)) ∧
        (url ≠ token → url = "https://".toList ++ token))
      (newUrls urlInput) (validUrls urlInput) := by
  unfold validUrls
  rw [List.forall₂_map_right_iff, List.forall₂_same]
  intro token _
  by_cases h : "http://".toList <+: token ∨ "https://".toList <+: token
  · have e := normalizeUrl_of_scheme token h
    exact ⟨⟨fun _ => h, fun _ => e⟩, fun hne => absurd e hne⟩
  · have e := normalizeUrl_of_no_scheme token (fun h₁ => h (Or.inl h₁)) (fun h₂ => h (Or.inr h₂))
    refine ⟨⟨fun heq => ?_, fun h' => absurd h' h⟩, fun _ => e⟩
    rw [e] at heq
    exact absurd heq (https_append_ne token)

/-- C3: the list `addUrl` submits to `checkUrls` has one entry for each maximal
run of non-separator characters of the input, in order, the entry being the
normalised run; no submitted URL is empty or contains a comma, a newline or
white space. -/
theorem validUrls_eq_map_maximalRuns (urlInput : JSString) :
    validUrls urlInput = (maximalRuns urlInput).map normalizeUrl ∧
    (validUrls urlInput).length = (maximalRuns urlInput).length ∧
    ∀ url ∈ validUrls urlInput,
      url ≠ [] ∧ ∀ c ∈ url, c ≠ ',' ∧ c ≠ '\n' ∧ isWhiteSpace c = false := by
  have hmap : validUrls urlInput = (maximalRuns urlInput).map normalizeUrl := by
    unfold validUrls
    rw [newUrls_eq_maximalRuns]
  refine ⟨hmap, by rw [hmap, List.length_map], ?_⟩
  intro url hurl
  unfold validUrls at hurl
  obtain ⟨token, htoken, rfl⟩ := List.mem_map.1 hurl
  obtain ⟨hne, hfree⟩ := newUrls_mem urlInput token htoken
  have hsep : ∀ c ∈ normalizeUrl token, isSeparator c = false := by
    intro c hc
    unfold normalizeUrl at hc
    split at hc
    · rcases List.mem_append.1 hc with hc | hc
      · have hpre : ∀ d ∈ "https://".toList, isSeparator d = false := by decide
        exact hpre c hc
      · exact hfree c hc
    · exact hfree c hc
  constructor
  · unfold normalizeUrl
    split
    · simp
    · exact hne
  · intro c hc
    have h := hsep c hc
    simp only [isSeparator, Bool.or_eq_false_iff, beq_eq_false_iff_ne] at h
    exact ⟨h.1.2, h.1.1, h.2⟩

/-- Whatever 'Refresh All' posts is a list with at least one URL: the handler
tests `urls.length > 0` before it calls `checkUrls`. -/
theorem refreshAll_posts_nonempty {δ : Type} (stringify : δ → String) (net : Network δ)
    (st : AppState) (urls : List JSString)
    (h : Request.postCheckUrls urls ∈ (refreshAll stringify net st).2) : urls ≠ [] := by
  unfold refreshAll at h
  split at h
  · rename_i hlen
    have hne : st.urls.map (fun url => url.url) ≠ [] := by
      intro hnil
      rw [List.map_eq_nil_iff] at hnil
      rw [hnil] at hlen
      simp at hlen
    have hposted : urls = st.urls.map (fun url => url.url) := by
      cases hhealth : net.health with
      | error error => simp [checkUrls, hhealth] at h
      | ok u =>
        cases hpost : net.checkUrls with
        | error error => simpa [checkUrls, hhealth, hpost] using h
        | ok data =>
          cases data with
          | array results => simpa [checkUrls, hhealth, hpost] using h
          | other => simpa [checkUrls, hhealth, hpost] using h
    rw [hposted]
    exact hne
  · simp at h

/-- C10, the failing input: for the input ',' the button 'Check URLs' is enabled
(the trimmed input is not empty) and `addUrl` submits the empty list to
`checkUrls`, which posts it, where the claim asks for a list with at least one
URL; the button 'Refresh All' is disabled for an empty list and its handler
sends nothing. -/
theorem validUrls_comma_empty :
    checkUrlsButtonDisabled { initialState with urlInput := ",".toList } = false ∧
    trim ",".toList ≠ [] ∧
    validUrls ",".toList = [] ∧
    (addUrl (fun data : String => data)
      { health := .ok (), checkUrls := .ok (.array []), urls := .ok [] }
      { initialState with urlInput := ",".toList }).2 =
        [Request.getHealth, Request.postCheckUrls [], Request.getUrls] ∧
    refreshAllDisabled initialState = true ∧
    (refreshAll (fun data : String => data)
      { health := .ok (), checkUrls := .ok (.array []), urls := .ok [] }
      initialState).2 = [] := by
  decide

/-- An input with at least one character that is neither white space nor a
comma yields at least one URL. -/
theorem validUrls_ne_nil (urlInput : JSString) (h : ∃ c ∈ urlInput, isSeparator c = false) :
    validUrls urlInput ≠ [] := by
  obtain ⟨piece, hp, hne⟩ :=
    splitScan_exists_nonempty urlInput [] false (fun hf => by cases hf) (Or.inr h)
  have hfree := splitScan_no_separator urlInput [] false (by simp) piece hp
  have hws : ∀ c ∈ piece, isWhiteSpace c = false := by
    intro c hc
    cases hw : isWhiteSpace c
    · rfl
    · have := hfree c hc
      rw [isSeparator_of_isWhiteSpace c hw] at this
      cases this
  have hmem : piece ∈ newUrls urlInput := by
    unfold newUrls split
    rw [List.mem_filter]
    refine ⟨hp, ?_⟩
    rw [trim_eq_self piece hws]
    simpa using hne
  intro hnil
  unfold validUrls at hnil
  rw [List.map_eq_nil_iff] at hnil
  rw [hnil] at hmem
  cases hmem

/-- The input 'a.b, c' yields at least one URL. -/
theorem validUrls_ne_nil_witness :
    (∃ c ∈ "a.b, c".toList, isSeparator c = false) ∧ validUrls "a.b, c".toList ≠ [] :=
  ⟨⟨'a', by decide, by decide⟩, validUrls_ne_nil "a.b, c".toList ⟨'a', by decide, by decide⟩⟩

/-! ## The claims on `checkUrls` -/

/-- C4: when the request `POST /check-urls` fails, the snackbar is an error whose
message is 'Server error: <status> - <JSON of the data>' if the error carries a
response, else 'No response received from server' if it carries a request, else
'Request error: <message>'; the response case comes first. -/
theorem checkUrls_post_failure {δ : Type} (stringify : δ → String) (net : Network δ)
    (st : AppState) (urlsToCheck : List JSString) (error : AxiosError δ)
    (hhealth : net.health = .ok ()) (hpost : net.checkUrls = .error error) :
    (checkUrls stringify net st urlsToCheck).1.snackbar.opened = true ∧
    (checkUrls stringify net st urlsToCheck).1.snackbar.severity = "error" ∧
    (∀ response, error.response = some response →
      (checkUrls stringify net st urlsToCheck).1.snackbar.message =
        "Server error: " ++ toString response.status ++ " - " ++ stringify response.data) ∧
    (error.response = none → error.request ≠ none →
      (checkUrls stringify net st urlsToCheck).1.snackbar.message =
        "No response received from server") ∧
    (error.response = none → error.request = none →
      (checkUrls stringify net st urlsToCheck).1.snackbar.message =
        "Request error: " ++ error.message) := by
  have hrun : (checkUrls stringify net st urlsToCheck).1.snackbar =
      { opened := true, message := errorMessage stringify error, severity := "error" } := by
    simp only [checkUrls, hhealth, hpost]
  rw [hrun]
  refine ⟨rfl, rfl, ?_, ?_, ?_⟩
  · intro response hresponse
    simp [errorMessage, hresponse, Id.run]
  · intro hresponse hrequest
    cases hreq : error.request with
    | none => exact absurd hreq hrequest
    | some _ => simp [errorMessage, hresponse, hreq, Id.run]
  · intro hresponse hrequest
    simp [errorMessage, hresponse, hrequest, Id.run]

/-- C4 at a server error 500 with the data 'down'. -/
theorem checkUrls_post_failure_witness :
    (checkUrls (fun data : String => data)
      { health := .ok ()
        checkUrls := .error { response := some { status := 500, data := "down" }
                              request := some (), message := "Request failed" }
        urls := .ok [] }
      initialState ["https://example.com".toList]).1.snackbar.message =
        "Server error: " ++ toString 500 ++ " - " ++ "down" :=
  (checkUrls_post_failure (fun data : String => data)
    { health := .ok ()
      checkUrls := .error { response := some { status := 500, data := "down" }
                            request := some (), message := "Request failed" }
      urls := .ok [] }
    initialState ["https://example.com".toList]
    { response := some { status := 500, data := "down" }, request := some (),
      message := "Request failed" }
    rfl rfl).2.2.1 { status := 500, data := "down" } rfl

/-- C5: when the probe `GET /health` fails, `checkUrls` sends no
`POST /check-urls`, leaves `urlResults` and `urls` as they were, shows an error
snackbar that begins 'API not reachable:' and ends with `loading` false; a
`POST /check-urls` is only ever sent after the probe has succeeded. -/
theorem checkUrls_health_gate {δ : Type} (stringify : δ → String) (net : Network δ)
    (st : AppState) (urlsToCheck : List JSString) :
    (∀ error, net.health = .error error →
      (checkUrls stringify net st urlsToCheck).2 = [Request.getHealth] ∧
      (∀ urls, Request.postCheckUrls urls ∉ (checkUrls stringify net st urlsToCheck).2) ∧
      (checkUrls stringify net st urlsToCheck).1.urlResults = st.urlResults ∧
      (checkUrls stringify net st urlsToCheck).1.urls = st.urls ∧
      (checkUrls stringify net st urlsToCheck).1.snackbar.opened = true ∧
      (checkUrls stringify net st urlsToCheck).1.snackbar.severity = "error" ∧
      (∃ rest, (checkUrls stringify net st urlsToCheck).1.snackbar.message =
        "API not reachable:" ++ rest) ∧
      (checkUrls stringify net st urlsToCheck).1.loading = false) ∧
    (∀ urls, Request.postCheckUrls urls ∈ (checkUrls stringify net st urlsToCheck).2 →
      net.health = .ok () ∧
      ∃ rest, (checkUrls stringify net st urlsToCheck).2 =
        Request.getHealth :: Request.postCheckUrls urls :: rest) := by
  constructor
  · intro error hhealth
    refine ⟨?_, ?_, ?_, ?_, ?_, ?_, ?_, ?_⟩
    · simp only [checkUrls, hhealth]
    · intro urls hmem
      simp [checkUrls, hhealth] at hmem
    · simp only [checkUrls, hhealth]
    · simp only [checkUrls, hhealth]
    · simp only [checkUrls, hhealth]
    · simp only [checkUrls, hhealth]
    · refine ⟨" " ++ error.message ++ ". Check if the backend is running.", ?_⟩
      simp only [checkUrls, hhealth]
      have hsplit : "API not reachable: " = "API not reachable:" ++ " " := by decide
      rw [hsplit]
      simp only [String.append_assoc]
    · simp only [checkUrls, hhealth]
  · intro urls hmem
    cases hhealth : net.health with
    | error error =>
      simp [checkUrls, hhealth] at hmem
    | ok u =>
      refine ⟨rfl, ?_⟩
      cases hpost : net.checkUrls with
      | error error =>
        simp only [checkUrls, hhealth, hpost, List.mem_cons, List.mem_singleton,
          Request.postCheckUrls.injEq, false_or, List.not_mem_nil, or_false, reduceCtorEq] at hmem ⊢
        subst hmem
        exact ⟨_, rfl⟩
      | ok data =>
        cases data with
        | array results =>
          simp only [checkUrls, hhealth, hpost, List.mem_cons, List.mem_singleton,
            Request.postCheckUrls.injEq, false_or, List.not_mem_nil, or_false,
            reduceCtorEq] at hmem ⊢
          subst hmem
          exact ⟨_, rfl⟩
        | other =>
          simp only [checkUrls, hhealth, hpost, List.mem_cons, List.mem_singleton,
            Request.postCheckUrls.injEq, false_or, List.not_mem_nil, or_false,
            reduceCtorEq] at hmem ⊢
          subst hmem
          exact ⟨_, rfl⟩

/-- C5 at a probe that fails with 'Network Error'. -/
theorem checkUrls_health_gate_witness :
    (checkUrls (fun data : String => data)
      { health := .error { response := none, request := some (), message := "Network Error" }
        checkUrls := .ok (.array [])
        urls := .ok [] }
      initialState ["https://example.com".toList]).2 = [Request.getHealth] :=
  ((checkUrls_health_gate (fun data : String => data)
    { health := .error { response := none, request := some (), message := "Network Error" }
      checkUrls := .ok (.array [])
      urls := .ok [] }
    initialState ["https://example.com".toList]).1
    { response := none, request := some (), message := "Network Error" } rfl).1

/-! ## The claims on `UrlMetrics` and on the tables -/

/-- C6: for a history given latest first, the line chart plots the
min(20, n) most recent records, oldest first; the labels and the data have
that length, and the i-th label and the i-th data value come from the same
record, the record at the position min(20, n) - 1 - i of the history. -/
theorem responseTimeData_recent (getHours getMinutes : Int → Nat) (history : List HealthCheck)
    (hsorted : history.Pairwise (fun a b => b.checked_at ≤ a.checked_at)) :
    (responseTimeData getHours getMinutes history).labels =
      ((history.take 20).reverse).map (timeLabel getHours getMinutes) ∧
    (responseTimeData getHours getMinutes history).data =
      ((history.take 20).reverse).map (fun check => check.response_time) ∧
    (responseTimeData getHours getMinutes history).labels.length = min 20 history.length ∧
    (responseTimeData getHours getMinutes history).data.length = min 20 history.length ∧
    ((history.take 20).reverse).Pairwise (fun a b => a.checked_at ≤ b.checked_at) ∧
    (∀ plotted ∈ history.take 20, ∀ other ∈ history.drop 20,
      other.checked_at ≤ plotted.checked_at) ∧
    (∀ i, i < min 20 history.length →
      (responseTimeData getHours getMinutes history).labels[i]? =
        (history[min 20 history.length - 1 - i]?).map (timeLabel getHours getMinutes) ∧
      (responseTimeData getHours getMinutes history).data[i]? =
        (history[min 20 history.length - 1 - i]?).map (fun check => check.response_time)) := by
  have hsplit : (history.take 20 ++ history.drop 20).Pairwise
      (fun a b => b.checked_at ≤ a.checked_at) := by
    rw [List.take_append_drop]; exact hsorted
  rw [List.pairwise_append] at hsplit
  have hlen : (history.take 20).length = min 20 history.length := List.length_take 20 history
  have hget : ∀ i, i < min 20 history.length →
      (history.take 20).reverse[i]? = history[min 20 history.length - 1 - i]? := by
    intro i hi
    rw [List.getElem?_reverse (by rw [hlen]; exact hi), hlen, List.getElem?_take_of_lt (by omega)]
  refine ⟨?_, ?_, ?_, ?_, ?_, ?_, ?_⟩
  · simp [responseTimeData, List.map_reverse]
  · simp [responseTimeData, List.map_reverse]
  · simp [responseTimeData]
  · simp [responseTimeData]
  · rw [List.pairwise_reverse]
    exact hsplit.1
  · intro plotted hp other ho
    exact hsplit.2.2 plotted hp other ho
  · intro i hi
    constructor
    · simp only [responseTimeData, ← List.map_reverse, List.getElem?_map, hget i hi]
    · simp only [responseTimeData, ← List.map_reverse, List.getElem?_map, hget i hi]

/-- C6 at a history of 22 records: 20 points are plotted. -/
theorem responseTimeData_recent_witness :
    sampleHistory.Pairwise (fun a b => b.checked_at ≤ a.checked_at) ∧
    (responseTimeData utcHours utcMinutes sampleHistory).data.length = min 20 sampleHistory.length ∧
    ((sampleHistory.take 20).reverse).Pairwise (fun a b => a.checked_at ≤ b.checked_at) :=
  ⟨by decide,
    (responseTimeData_recent utcHours utcMinutes sampleHistory (by decide)).2.2.2.1,
    (responseTimeData_recent utcHours utcMinutes sampleHistory (by decide)).2.2.2.2.1⟩

/-- C7, the failing input: for the snapshot of an empty window, whose
`uptime_percentage` and `average_response_time` are undefined (or null),
rendering the panel raises a TypeError, where the claim asks for 'N/A'; the
history table guards the same call with `check.response_time ? ... : 'N/A'`. -/
theorem renderMetricsPanel_empty_window :
    (fun toFixed minus => renderMetricsPanel toFixed minus
      (some { uptime_percentage := JSValue.undefined
              average_response_time := JSValue.undefined
              total_checks := JSValue.number 0 })) =
      (fun _ _ => Except.error JSError.typeError) ∧
    (fun toFixed minus => renderMetricsPanel toFixed minus
      (some { uptime_percentage := JSValue.null
              average_response_time := JSValue.null
              total_checks := JSValue.number 0 })) =
      (fun _ _ => Except.error JSError.typeError) ∧
    (fun toFixed => historyResponseTime toFixed
      { id := 1, checked_at := 0, status := JSValue.bool false
        response_time := JSValue.undefined, status_code := JSValue.undefined }) =
      (fun _ => Except.ok "N/A") :=
  ⟨rfl, rfl, rfl⟩

theorem append_ms_ne (s : String) : s ++ " ms" ≠ "N/A" := by
  intro h
  have hdata := congrArg String.data h
  rw [String.data_append] at hdata
  have hlen := congrArg List.length hdata
  have hnil : s.data = [] := by
    apply List.eq_nil_of_length_eq_zero
    simp at hlen
    exact hlen
  rw [hnil] at hdata
  revert hdata
  decide

/-- The cell `v ? (v.toFixed(2) + ' ms') : 'N/A'` for a value that is absent or a number. -/
theorem cell_absent_or_number (toFixed : ℚ → Nat → String) (v : JSValue)
    (cell : Except JSError String)
    (hcell : cell = if v.toBoolean then (do
        let fixed ← callToFixed toFixed v 2
        pure (fixed ++ " ms")) else pure "N/A")
    (hv : v = JSValue.undefined ∨ v = JSValue.null ∨ ∃ x, v = JSValue.number x) :
    (cell = Except.ok "N/A" ↔
      v = JSValue.undefined ∨ v = JSValue.null ∨ v = JSValue.number 0) ∧
    (∀ x, v = JSValue.number x → x ≠ 0 → cell = Except.ok (toFixed x 2 ++ " ms")) := by
  subst hcell
  rcases hv with rfl | rfl | ⟨x, rfl⟩
  · exact ⟨⟨fun _ => Or.inl rfl, fun _ => rfl⟩, fun x hx => by cases hx⟩
  · exact ⟨⟨fun _ => Or.inr (Or.inl rfl), fun _ => rfl⟩, fun x hx => by cases hx⟩
  · by_cases hx : x = 0
    · subst hx
      refine ⟨⟨fun _ => Or.inr (Or.inr rfl), fun _ => ?_⟩, fun y hy hne => ?_⟩
      · simp [JSValue.toBoolean]
        rfl
      · cases hy
        exact absurd rfl hne
    · have hcellx : (if (JSValue.number x).toBoolean then (do
          let fixed ← callToFixed toFixed (JSValue.number x) 2
          pure (fixed ++ " ms")) else pure "N/A") =
          (Except.ok (toFixed x 2 ++ " ms") : Except JSError String) := by
        simp [JSValue.toBoolean, hx, callToFixed]
      rw [hcellx]
      refine ⟨⟨fun h => ?_, fun h => ?_⟩, fun y hy _ => ?_⟩
      · injection h with h
        exact absurd h (append_ms_ne _)
      · rcases h with h | h | h
        · cases h
        · cases h
        · injection h with h
          exact absurd h hx
      · cases hy
        rfl

/-- C8, as stated, fails: a response time of 0 is present and both tables show
'N/A' for it, not a millisecond value. -/
theorem responseTime_zero_shown_na :
    (fun toFixed => latestResultsResponseTime toFixed
      { url := "https://example.com", status := JSValue.string "UP"
        response_time := JSValue.number 0, status_code := JSValue.number 200 }) =
      (fun _ => Except.ok "N/A") ∧
    (fun toFixed => historyResponseTime toFixed
      { id := 1, checked_at := 0, status := JSValue.bool true
        response_time := JSValue.number 0, status_code := JSValue.number 200 }) =
      (fun _ => Except.ok "N/A") := by
  constructor
  · funext toFixed
    simp [latestResultsResponseTime, JSValue.toBoolean]
    rfl
  · funext toFixed
    simp [historyResponseTime, JSValue.toBoolean]
    rfl

/-- C8, amended: in the Latest Results table and in the Health Check History
table, for a response time that is absent or a number, the Response Time cell
reads 'N/A' if and only if the response time is absent (undefined or null) or
equal to 0; every present response time other than 0 is displayed as
'<value to two decimals> ms'. -/
theorem responseTime_cells (toFixed : ℚ → Nat → String) (result : CheckResult)
    (check : HealthCheck)
    (hresult : result.response_time = JSValue.undefined ∨ result.response_time = JSValue.null ∨
      ∃ x, result.response_time = JSValue.number x)
    (hcheck : check.response_time = JSValue.undefined ∨ check.response_time = JSValue.null ∨
      ∃ x, check.response_time = JSValue.number x) :
    ((latestResultsResponseTime toFixed result = Except.ok "N/A" ↔
        result.response_time = JSValue.undefined ∨ result.response_time = JSValue.null ∨
          result.response_time = JSValue.number 0) ∧
      (∀ x, result.response_time = JSValue.number x → x ≠ 0 →
        latestResultsResponseTime toFixed result = Except.ok (toFixed x 2 ++ " ms"))) ∧
    ((historyResponseTime toFixed check = Except.ok "N/A" ↔
        check.response_time = JSValue.undefined ∨ check.response_time = JSValue.null ∨
          check.response_time = JSValue.number 0) ∧
      (∀ x, check.response_time = JSValue.number x → x ≠ 0 →
        historyResponseTime toFixed check = Except.ok (toFixed x 2 ++ " ms"))) :=
  ⟨cell_absent_or_number toFixed result.response_time (latestResultsResponseTime toFixed result)
      rfl hresult,
    cell_absent_or_number toFixed check.response_time (historyResponseTime toFixed check)
      rfl hcheck⟩

/-- The amended C8 at a result measured at 25/2 ms and a record without a
response time, with a formatter that knows that one number. -/
theorem responseTime_cells_witness :
    latestResultsResponseTime (fun _ _ => "12.50")
      { url := "https://example.com", status := JSValue.string "UP"
        response_time := JSValue.number (25 / 2), status_code := JSValue.number 200 } =
      Except.ok ("12.50" ++ " ms") :=
  (responseTime_cells (fun _ _ => "12.50")
    { url := "https://example.com", status := JSValue.string "UP"
      response_time := JSValue.number (25 / 2), status_code := JSValue.number 200 }
    { id := 1, checked_at := 0, status := JSValue.bool false
      response_time := JSValue.null, status_code := JSValue.null }
    (Or.inr (Or.inr ⟨25 / 2, rfl⟩)) (Or.inr (Or.inl rfl))).1.2 (25 / 2) rfl (by norm_num)

/-- C9, as stated, fails: a history record whose status is the enum value
'DOWN' gets the chip 'UP' in colour 'success'; the Latest Results chip of the
same status is 'DOWN' in colour 'error'. -/
theorem historyStatusChip_enum_down :
    historyStatusChip
      { id := 1, checked_at := 0, status := JSValue.string "DOWN"
        response_time := JSValue.null, status_code := JSValue.null } =
      { label := "UP", color := "success" } ∧
    latestResultsStatusChip
      { url := "https://example.com", status := JSValue.string "DOWN"
        response_time := JSValue.null, status_code := JSValue.null } =
      (JSValue.string "DOWN", "error") := by
  decide

/-- C9, amended: for every history record whose status is a boolean, the chip
is labelled 'UP' with colour 'success' if and only if the status is true (UP),
and labelled 'DOWN' with colour 'error' if and only if the status is false
(DOWN). -/
theorem historyStatusChip_bool (check : HealthCheck) (b : Bool)
    (hstatus : check.status = JSValue.bool b) :
    (historyStatusChip check = { label := "UP", color := "success" } ↔ b = true) ∧
    (historyStatusChip check = { label := "DOWN", color := "error" } ↔ b = false) := by
  cases b <;> simp [historyStatusChip, hstatus, JSValue.toBoolean]

/-- The amended C9 at a record that was down. -/
theorem historyStatusChip_bool_witness :
    historyStatusChip
      { id := 1, checked_at := 0, status := JSValue.bool false
        response_time := JSValue.null, status_code := JSValue.null } =
      { label := "DOWN", color := "error" } :=
  (historyStatusChip_bool
    { id := 1, checked_at := 0, status := JSValue.bool false
      response_time := JSValue.null, status_code := JSValue.null } false rfl).2.2 rfl

/-! ## Idempotence of the normalisation -/

/-- C11, as stated, fails: the dashboard lists whatever `GET /urls` returns;
a listed 'ftp://host' entered again is submitted as 'https://ftp://host', and a
listed 'https://example.com/a,b' entered again is submitted as two URLs. -/
theorem validUrls_listed_url_changed :
    (fetchUrls
      ({ health := .ok (), checkUrls := .ok (.array [])
         urls := .ok [{ id := 1, url := "ftp://host".toList },
                      { id := 2, url := "https://example.com/a,b".toList }] } : Network String)
      initialState).urls.map (fun url => validUrls url.url) =
        [["https://ftp://host".toList],
         ["https://example.com/a".toList, "https://b".toList]] ∧
    validUrls "ftp://host".toList ≠ ["ftp://host".toList] ∧
    validUrls "https://example.com/a,b".toList ≠ ["https://example.com/a,b".toList] := by
  decide

/-- C11, amended: the normalisation of `addUrl` is idempotent: normalising the
normalised form of a token gives the normalised form again, so that entering a
URL exactly as it was submitted makes `addUrl` submit that one string again, and
normalising a submitted list leaves it as it is; a URL as the dashboard lists it
is submitted again as that one identical string if and only if it is not empty,
contains no comma, newline or white space and starts with 'http://' or
'https://'. -/
theorem normalizeUrl_idempotent (urlInput : JSString) :
    (∀ token : JSString, normalizeUrl (normalizeUrl token) = normalizeUrl token) ∧
    (∀ url ∈ validUrls urlInput, validUrls url = [url]) ∧
    (validUrls urlInput).map normalizeUrl = validUrls urlInput ∧
    (∀ listed : JSString, validUrls listed = [listed] ↔
      (listed ≠ [] ∧ (∀ c ∈ listed, isSeparator c = false) ∧
        ("http://".toList <+: listed ∨ "https://".toList <+: listed))) := by
  have hidem : ∀ token : JSString, normalizeUrl (normalizeUrl token) = normalizeUrl token :=
    fun token => normalizeUrl_of_scheme (normalizeUrl token) (normalizeUrl_scheme token)
  refine ⟨hidem, ?_, ?_, ?_⟩
  · intro url hurl
    unfold validUrls at hurl
    obtain ⟨token, htoken, rfl⟩ := List.mem_map.1 hurl
    obtain ⟨hne, hfree⟩ := newUrls_mem urlInput token htoken
    obtain ⟨hne', hfree'⟩ := normalizeUrl_no_separator token hne hfree
    unfold validUrls
    rw [newUrls_of_no_separator (normalizeUrl token) hne' hfree']
    simp [hidem token]
  · unfold validUrls
    rw [List.map_map]
    apply List.map_congr_left
    intro token _
    exact hidem token
  · intro listed
    constructor
    · intro h
      have hmem : listed ∈ validUrls listed := by rw [h]; exact List.mem_singleton.2 rfl
      unfold validUrls at hmem
      obtain ⟨token, htoken, htok⟩ := List.mem_map.1 hmem
      obtain ⟨hne, hfree⟩ := newUrls_mem listed token htoken
      obtain ⟨hne', hfree'⟩ := normalizeUrl_no_separator token hne hfree
      rw [htok] at hne' hfree'
      have hscheme := normalizeUrl_scheme token
      rw [htok] at hscheme
      exact ⟨hne', hfree', hscheme⟩
    · rintro ⟨hne, hfree, hscheme⟩
      unfold validUrls
      rw [newUrls_of_no_separator listed hne hfree]
      simp [normalizeUrl_of_scheme listed hscheme]

end UrlHealthMonitor
